/-
Verification of the mango_trader_v6 daily trading-signal engine.

This file gives a shallow embedding, in Lean 4, of the core data model and
operations of the repository:

  * `src/utils.py`            — coin universe, database schema,
  * `src/03_predict_and_trade.py` — prediction engine (`predict_best_coin`,
                                    `record_prediction`),
  * `src/04_record_results.py`    — result recorder (`calculate_rank`),
  * `src/05_self_improve.py`      — backtest engine (`backtest_scorer`),
                                    improvement controller (`main`,
                                    `long_term_improvement`, `upgrade_model`,
                                    `get_current_model_version`,
                                    `get_current_performance`).

Numeric conventions: Python floats are modelled as `ℚ` wherever the code only
moves, compares and averages values; the single genuinely irrational quantity,
the Spearman rank-correlation coefficient produced by `scipy.stats.spearmanr`,
is modelled in `ℝ` (Pearson correlation of midranks, which is what scipy
computes).  SQLite rows are modelled as Lean structures; a NULL-able column is
an `Option`.  Python dictionaries read with `.get(key, default)` are modelled
as association lists / `Option` fields read with `getD`.

A strategy (`score_coin`) is modelled as a function that may fail on any
invocation (`Except Unit ℚ`), mirroring the fact that the code executes
oracle-provided source text.  Loading a strategy from text (`exec` +
`namespace.get("score_coin")`) is modelled as an `Option Strategy`: `none`
means the text failed to execute or did not define `score_coin`.
-/
import Mathlib

set_option maxRecDepth 4000

/-! ## The coin universe (src/utils.py, `COINS`) -/

/-- The fixed 16-symbol asset universe, in canonical order (utils.py lines 61-65). -/
def COINS : List String :=
  ["BTCUSD", "ETHUSD", "SOLUSD", "ADAUSD", "DOGEUSD", "AVAXUSD",
   "LINKUSD", "MATICUSD", "DOTUSD", "LTCUSD", "BCHUSD", "XLMUSD",
   "ALGOUSD", "UNIUSD", "AAVEUSD", "MKRUSD"]

/-! ## Strategies (the `score_coin` interface) -/

/-- The fixed argument tuple of `score_coin`:
`(return_24h, return_6h, volume_ratio, news_sentiment)`. -/
abbrev Feats := ℚ × ℚ × ℚ × ℚ

/-- A loaded scoring strategy.  An invocation may raise (modelled as
`Except.error ()`), since the code runs oracle-provided source text. -/
abbrev Strategy := Feats → Except Unit ℚ

/-! ## The `trades` table (src/utils.py, `init_database`) -/

/-- One row of the `trades` table.  The per-coin feature columns
(`<coin>_return_1h`, `<coin>_return_6h`, `<coin>_return_24h`, `<coin>_rsi_14`,
`<coin>_volume_ratio`, `<coin>_news_sentiment`) are modelled as lists parallel
to `COINS`; a missing entry stands for a column that is absent from the row
dictionary, so reads go through defaults exactly as `row_dict.get(key, d)`
does. -/
structure TradeRow where
  date : ℕ
  chosen_coin : Option String
  chosen_score : Option ℚ
  actual_24h_return_of_chosen : Option ℚ
  rank_of_chosen : Option ℤ
  ret1h : List ℚ
  ret6h : List ℚ
  ret24h : List ℚ
  rsi14 : List ℚ
  volr : List ℚ
  sent : List ℚ
  news_headlines : Option String
  perplexity_summary : Option String
  model_version : ℤ
  deriving DecidableEq

/-- One row of the append-only `model_history` table (utils.py lines 134-144). -/
structure HistoryRow where
  date : ℕ
  version : ℤ
  scorer_code : String
  spearman_correlation : ℝ
  avg_daily_return : ℚ
  improvement_type : String

/-- The persistent database: the `trades` table and the `model_history` log. -/
structure DBState where
  trades : List TradeRow
  model_history : List HistoryRow

/-- Whole-system state: the database plus the mutable strategy files.
`current_scorer` is the content of `current_scorer.py` (the active strategy
text), `backups` the `current_scorer.py.backup.v<n>` files written by
`upgrade_model`. -/
structure SysState where
  db : DBState
  current_scorer : Option String
  backups : List (ℤ × String)

/-! ## Generic helpers: Python's stable sort.

`sorted(items, key=lambda x: x[1], reverse=True)` is a stable descending
sort; we model it by insertion: a new element goes after every element whose
key is `≥` its own, which keeps earlier elements first on ties — exactly
CPython's behaviour. -/

/-- Insert `x` after every element of `l` whose key is `≥ key x`. -/
def insortBy {α : Type} (key : α → ℚ) (x : α) : List α → List α
  | [] => [x]
  | y :: ys => if key x ≤ key y then y :: insortBy key x ys else x :: y :: ys

/-- Python's `sorted(l, key=key, reverse=True)`: stable, descending. -/
def pysortDescBy {α : Type} (key : α → ℚ) (l : List α) : List α :=
  l.foldl (fun acc x => insortBy key x acc) []

/-- `mapIdx f k [a, b, ...] = [f k a, f (k+1) b, ...]` — iteration of a list
together with the position index, as `enumerate` does. -/
def mapIdx {α β : Type} (f : ℕ → α → β) : ℕ → List α → List β
  | _, [] => []
  | i, a :: l => f i a :: mapIdx f (i + 1) l

/-- `np.mean` of a list of rationals. -/
def qMean (l : List ℚ) : ℚ := l.sum / l.length

/-- `row_dict.get(column_for_index_i, d)`: the `i`-th entry of a per-coin
column list, or the documented default when the column is absent. -/
def featAt (l : List ℚ) (i : ℕ) (d : ℚ) : ℚ := (l.get? i).getD d

/-! ## The backtest engine (`backtest_scorer`, 05_self_improve.py 128-224) -/

/-- The feature tuple handed to `score_coin` for coin `i` of a historical row
(05_self_improve.py lines 175-178: defaults `0`, `0`, `1.0`, `0.0`). -/
def btFeats (row : TradeRow) (i : ℕ) : Feats :=
  (featAt row.ret24h i 0, featAt row.ret6h i 0, featAt row.volr i 1, featAt row.sent i 0)

/-- Score one coin inside the backtest loop.  The `try/except` of lines
180-185 maps any invocation failure to the neutral score `0`. -/
def btScore (s : Strategy) (row : TradeRow) (i : ℕ) : ℚ :=
  match s (btFeats row i) with
  | Except.ok v => v
  | Except.error _ => 0

/-- `scores = {coin: score}` of lines 173-185, in `COINS` order. -/
def coinScores (s : Strategy) (row : TradeRow) : List (String × ℚ) :=
  mapIdx (fun i c => (c, btScore s row i)) 0 COINS

/-- `actual_returns = {coin: row.get(coin_return_24h, 0)}` (line 194). -/
def actualReturns (row : TradeRow) : List (String × ℚ) :=
  mapIdx (fun i c => (c, featAt row.ret24h i 0)) 0 COINS

/-- The 1-indexed position of coin `c` in a sorted score list — the rank
dictionaries built from `enumerate(sorted_by_score)` (lines 197-202). -/
def rankOf (sorted : List (String × ℚ)) (c : String) : ℚ :=
  ((sorted.findIdx (fun p => p.1 == c) : ℕ) : ℚ) + 1

/-- `predicted_ranks_for_day` (line 205). -/
def dayPredRanks (s : Strategy) (row : TradeRow) : List ℚ :=
  COINS.map (rankOf (pysortDescBy Prod.snd (coinScores s row)))

/-- `actual_ranks_for_day` (line 206). -/
def dayActRanks (row : TradeRow) : List ℚ :=
  COINS.map (rankOf (pysortDescBy Prod.snd (actualReturns row)))

/-- Python's `max(items, key=lambda x: x[1])`: the first element with maximal
second component (`max` only replaces its candidate on a strictly greater
key).  Total with a dummy value on `[]`; the code only applies it to the
non-empty `scores`. -/
def pyMaxPair (l : List (String × ℚ)) : String × ℚ :=
  match l with
  | [] => ("", 0)
  | x :: xs => xs.foldl (fun b y => if b.2 < y.2 then y else b) x

/-- `predicted_coin` of line 191. -/
def pickedCoin (s : Strategy) (row : TradeRow) : String :=
  (pyMaxPair (coinScores s row)).1

/-- `actual_returns.get(predicted_coin, 0)` (line 212): the realized 24h
return of the coin the strategy ranked first that day. -/
def pickedReturn (s : Strategy) (row : TradeRow) : ℚ :=
  ((actualReturns row).lookup (pickedCoin s row)).getD 0

/-- The accumulation loop of lines 168-213: per row, append the day's
predicted ranks and actual ranks to the two pooled sequences and the picked
coin's realized return to `daily_returns`.  The `if not scores: continue`
guard of line 187 is kept verbatim (it never fires, `COINS` being non-empty). -/
def btLoop (s : Strategy) : List TradeRow → List ℚ × List ℚ × List ℚ
  | [] => ([], [], [])
  | row :: rest =>
    if coinScores s row = [] then btLoop s rest
    else
      (dayPredRanks s row ++ (btLoop s rest).1,
       dayActRanks row ++ (btLoop s rest).2.1,
       pickedReturn s row :: (btLoop s rest).2.2)

/-! ### `scipy.stats.spearmanr`

scipy ranks both input sequences again (average method for ties) and returns
the Pearson correlation coefficient of the midranks. -/

/-- The average ("mid") rank of the value `x` within the list `l`. -/
def midrank (l : List ℚ) (x : ℚ) : ℚ :=
  ((l.filter (fun y => decide (y < x))).length : ℚ) +
    (((l.filter (fun y => decide (y = x))).length : ℚ) + 1) / 2

/-- Replace every entry of `l` by its midrank within `l`. -/
def midranks (l : List ℚ) : List ℚ := l.map (midrank l)

/-- `n·Σxy − Σx·Σy`, the numerator of the Pearson coefficient (scaled by n²). -/
def pearsonNum (xs ys : List ℚ) : ℚ :=
  (xs.length : ℚ) * (List.zipWith (· * ·) xs ys).sum - xs.sum * ys.sum

/-- `n·Σx² − (Σx)²`, the square of one factor of the Pearson denominator. -/
def pearsonDenSq (xs : List ℚ) : ℚ :=
  (xs.length : ℚ) * (xs.map (fun x => x * x)).sum - xs.sum * xs.sum

/-- The Pearson correlation coefficient of two equal-length samples. -/
noncomputable def pearson (xs ys : List ℚ) : ℝ :=
  ((pearsonNum xs ys : ℚ) : ℝ) /
    (Real.sqrt ((pearsonDenSq xs : ℚ) : ℝ) * Real.sqrt ((pearsonDenSq ys : ℚ) : ℝ))

/-- `scipy.stats.spearmanr` on two pooled rank sequences. -/
noncomputable def spearmanr (xs ys : List ℚ) : ℝ :=
  pearson (midranks xs) (midranks ys)

/-- `backtest_scorer(scorer_code, days)` after the database query: `rows` is
the window of resolved records, `load` the result of executing the scorer
text (`none` = `exec` failed or no `score_coin` defined, lines 148-158).
Returns `none` for the Python `(None, None)`.  The `< 10` row check of line
144 happens before the code is executed; the second `< 10` check is line 215. -/
noncomputable def backtest_scorer (rows : List TradeRow) (load : Option Strategy) :
    Option (ℝ × ℚ) :=
  if rows.length < 10 then none
  else
    match load with
    | none => none
    | some s =>
      if (btLoop s rows).1.length < 10 then none
      else
        some (spearmanr (btLoop s rows).1 (btLoop s rows).2.1,
              qMean (btLoop s rows).2.2)

/-! ## Database queries of the improvement controller -/

/-- `actual_24h_return_of_chosen IS NOT NULL`. -/
def resolvedQ (r : TradeRow) : Bool := r.actual_24h_return_of_chosen.isSome

/-- The query of lines 134-139: resolved rows, most recent first, at most
`days` of them. -/
def queryResolved (trades : List TradeRow) (days : ℕ) : List TradeRow :=
  (pysortDescBy (fun r => (r.date : ℚ)) (trades.filter resolvedQ)).take days

/-- `get_current_performance` (lines 226-244): the average realized return of
the chosen coin over ALL resolved trades, or `None` when there are none. -/
def get_current_performance (trades : List TradeRow) : Option ℚ :=
  let l := trades.filterMap (fun r => r.actual_24h_return_of_chosen)
  if l.length = 0 then none else some (qMean l)

/-- `get_current_model_version` (lines 254-263): `SELECT MAX(model_version)
FROM trades`, with Python's `x if x else 1` collapsing both NULL (empty
table) and a falsy `0` to `1`. -/
def get_current_model_version (db : DBState) : ℤ :=
  match (db.trades.map (fun r => r.model_version)).max? with
  | none => 1
  | some v => if v = 0 then 1 else v

/-! ## `upgrade_model` (lines 265-308), split into its three writes.

The three writes hit two different stores (the filesystem and the SQLite
database) and are not wrapped in any common transaction, so a crash can stop
after any prefix.  The `# Version n` comment line prepended to the file and
the `def`-extraction regex of lines 281-285 are presentation-level text
transformations and are not modelled: the file content is identified with the
scorer code it carries. -/

/-- Write 1 (lines 270-275): back up the current scorer, if any, to
`current_scorer.py.backup.v<current version>`. -/
def upgradeBackup (S : SysState) : SysState :=
  match S.current_scorer with
  | none => S
  | some old => { S with backups := (get_current_model_version S.db, old) :: S.backups }

/-- Write 2 (lines 287-291): overwrite `current_scorer.py` with the new code. -/
def upgradeWrite (code : String) (S : SysState) : SysState :=
  { S with current_scorer := some code }

/-- Write 3 (lines 293-303): INSERT the new version row into `model_history`,
with `version = get_current_model_version() + 1` (line 278; recomputed here
unchanged, since the previous writes do not touch `trades`). -/
def upgradeInsert (today : ℕ) (code : String) (corr : ℝ) (ret : ℚ)
    (itype : String) (S : SysState) : SysState :=
  { S with db := { S.db with model_history := S.db.model_history ++
      [{ date := today, version := get_current_model_version S.db + 1,
         scorer_code := code, spearman_correlation := corr,
         avg_daily_return := ret, improvement_type := itype }] } }

/-- `upgrade_model(new_scorer_code, correlation, avg_return, improvement_type)`. -/
def upgrade_model (today : ℕ) (code : String) (corr : ℝ) (ret : ℚ)
    (itype : String) (S : SysState) : SysState :=
  upgradeInsert today code corr ret itype (upgradeWrite code (upgradeBackup S))

/-- The log/pointer consistency invariant of the spec: whatever
`current_scorer.py` holds appears as the code of some `model_history` row. -/
def ConsistentActive (S : SysState) : Prop :=
  ∀ c, S.current_scorer = some c → ∃ r ∈ S.db.model_history, r.scorer_code = c

/-! ## The improvement controller (`main`, lines 399-471, and
`long_term_improvement`, lines 310-397) -/

/-- The promotion test of lines 453 and 394:
`corr_improvement >= 0.04 or return_improvement >= 0.25`. -/
def improvementMet (corrDelta : ℝ) (retDelta : ℚ) : Prop :=
  (0.04 : ℝ) ≤ corrDelta ∨ (0.25 : ℚ) ≤ retDelta

/-- What one run of `main` did. -/
inductive CycleOutcome where
  | noYesterday
  | noCandidate
  | candidateBacktestFailed
  | promotedInitial
  | promotedDaily (corrDelta : ℝ) (retDelta : ℚ)
  | notPromoted (corrDelta : ℝ) (retDelta : ℚ)

/-- Whether the cycle promoted (wrote a new active strategy). -/
def CycleOutcome.isPromotion : CycleOutcome → Bool
  | CycleOutcome.promotedInitial => true
  | CycleOutcome.promotedDaily _ _ => true
  | _ => false

/-- The `return_improvement` the cycle computed, when it got that far. -/
def CycleOutcome.retDelta : CycleOutcome → Option ℚ
  | CycleOutcome.promotedDaily _ r => some r
  | CycleOutcome.notPromoted _ r => some r
  | _ => none

/-- The `corr_improvement` the cycle computed, when it got that far. -/
def CycleOutcome.corrDelta : CycleOutcome → Option ℝ
  | CycleOutcome.promotedDaily c _ => some c
  | CycleOutcome.notPromoted c _ => some c
  | _ => none

open Classical in
/-- Lines 438-457 of `main`: compare the already-backtested candidate with
the active strategy.  `acur` is the active strategy's backtest result (its
average-return component is discarded by `current_corr, _ = ...`), `gavg`
the result of `get_current_performance()`; a `None` in either is coerced to
`0.0` (lines 441-444). -/
noncomputable def dailyCompare (res : ℝ × ℚ) (acur : Option (ℝ × ℚ))
    (gavg : Option ℚ) : CycleOutcome :=
  if improvementMet (res.1 - ((acur.map Prod.fst).getD 0)) (res.2 - gavg.getD 0)
  then CycleOutcome.promotedDaily (res.1 - ((acur.map Prod.fst).getD 0)) (res.2 - gavg.getD 0)
  else CycleOutcome.notPromoted (res.1 - ((acur.map Prod.fst).getD 0)) (res.2 - gavg.getD 0)

/-- One daily improvement cycle (`main`, lines 399-461; the 30-day long-term
trigger of lines 463-469 is a separate entry point below).
`yesterday` is the row found for yesterday's date; `cand` is the outcome of
the oracle call (`none` = no scorer text obtained) composed with loading it;
`active` is `current_scorer.py` (`none` = the file does not exist) composed
with loading it. -/
noncomputable def mainCycle (trades : List TradeRow) (yesterday : Option TradeRow)
    (cand : Option (Option Strategy)) (active : Option (Option Strategy)) :
    CycleOutcome :=
  match yesterday with
  | none => CycleOutcome.noYesterday
  | some _ =>
    match cand with
    | none => CycleOutcome.noCandidate
    | some cl =>
      match backtest_scorer (queryResolved trades 180) cl with
      | none => CycleOutcome.candidateBacktestFailed
      | some res =>
        match active with
        | none => CycleOutcome.promotedInitial
        | some al =>
          dailyCompare res (backtest_scorer (queryResolved trades 180) al)
            (get_current_performance trades)

/-- What one run of `long_term_improvement` did. -/
inductive LTOutcome where
  | noAction
  | promoted (corrImp : ℝ) (retImp : ℚ)

open Classical in
/-- Lines 391-395: the deltas, with Python's `x - y if y else 0` collapsing a
falsy (exactly zero) baseline to a zero improvement, then the shared
promotion test. -/
noncomputable def ltCompare (res ares : ℝ × ℚ) (gavg : ℚ) : LTOutcome :=
  if improvementMet (if ares.1 = 0 then 0 else res.1 - ares.1)
      (if gavg = 0 then 0 else res.2 - gavg)
  then LTOutcome.promoted (if ares.1 = 0 then 0 else res.1 - ares.1)
      (if gavg = 0 then 0 else res.2 - gavg)
  else LTOutcome.noAction

/-- `long_term_improvement` (lines 310-397): requires 30 resolved rows, then
backtests candidate and active over the same 180-record window; if either
backtest (or the overall average) is `None`, it returns without acting
(lines 380-388). -/
noncomputable def longTermCycle (trades : List TradeRow)
    (cl al : Option Strategy) : LTOutcome :=
  if (trades.filter resolvedQ).length < 30 then LTOutcome.noAction
  else
    match backtest_scorer (queryResolved trades 180) cl with
    | none => LTOutcome.noAction
    | some res =>
      match backtest_scorer (queryResolved trades 180) al,
            get_current_performance trades with
      | some ares, some gavg => ltCompare res ares gavg
      | _, _ => LTOutcome.noAction

/-! ## The prediction engine (`predict_best_coin`, 03_predict_and_trade.py
lines 50-81) -/

/-- A per-coin entry of `data_cache.json`; a `none` field is a key absent
from the dictionary, read through `.get(key, default)`. -/
structure PriceEntry where
  return24h : Option ℚ
  return6h : Option ℚ
  volr : Option ℚ
  deriving DecidableEq

/-- The feature tuple of lines 67-72: field defaults `0`, `0`, `1.0`; the
sentiment value is passed through as read. -/
def predFeats (pe : PriceEntry) (sv : ℚ) : Feats :=
  (pe.return24h.getD 0, pe.return6h.getD 0, pe.volr.getD 1, sv)

/-- How `predict_best_coin` can fail: an uncaught strategy exception
propagating out of line 67, or the `ValueError("No coins could be scored")`
of line 77. -/
inductive PredictErr where
  | scoringFailure
  | noScorableAssets
  deriving DecidableEq

/-- The `for coin in COINS` loop of lines 54-74: a coin missing from the
price data (line 55) or from the sentiment map (line 59) is skipped with a
warning; the strategy invocation of line 67 is NOT guarded, so a failure
aborts the whole loop. -/
def predictLoop (price : List (String × PriceEntry)) (sent : List (String × ℚ))
    (s : Strategy) : List String → Except Unit (List (String × ℚ))
  | [] => Except.ok []
  | c :: rest =>
    match price.lookup c with
    | none => predictLoop price sent s rest
    | some pe =>
      match sent.lookup c with
      | none => predictLoop price sent s rest
      | some sv =>
        match s (predFeats pe sv) with
        | Except.error e => Except.error e
        | Except.ok sc => (predictLoop price sent s rest).map (fun l => (c, sc) :: l)

/-- `predict_best_coin(price_data, sentiment_data)`: returns
`(best_coin, best_score, scores)`. `sent` is `sentiment_data["sentiment"]`. -/
def predict_best_coin (price : List (String × PriceEntry))
    (sent : List (String × ℚ)) (s : Strategy) :
    Except PredictErr (String × ℚ × List (String × ℚ)) :=
  match predictLoop price sent s COINS with
  | Except.error _ => Except.error PredictErr.scoringFailure
  | Except.ok scores =>
    match scores with
    | [] => Except.error PredictErr.noScorableAssets
    | x :: xs =>
      let best := (x :: xs).foldl (fun b y => if b.2 < y.2 then y else b) x
      Except.ok (best.1, best.2, x :: xs)

/-- A coin that `predict_best_coin` can score: present in both caches. -/
def scorableB (price : List (String × PriceEntry)) (sent : List (String × ℚ))
    (c : String) : Bool :=
  (price.lookup c).isSome && (sent.lookup c).isSome

/-- The value of a total strategy at `x` (used to describe the scores a
failure-free pass collects). -/
def okValue (s : Strategy) (x : Feats) : ℚ := (s x).toOption.getD 0

/-- A price entry with no fields (never looked up; placeholder for `getD`). -/
def peDefault : PriceEntry := { return24h := none, return6h := none, volr := none }

/-- The score entry a failure-free prediction pass records for coin `c`. -/
def scoredEntry (price : List (String × PriceEntry)) (sent : List (String × ℚ))
    (s : Strategy) (c : String) : String × ℚ :=
  (c, okValue s (predFeats ((price.lookup c).getD peDefault) ((sent.lookup c).getD 0)))

/-- The full score list a failure-free prediction pass collects over `l`:
one entry per scorable coin, in order. -/
def scoredOf (price : List (String × PriceEntry)) (sent : List (String × ℚ))
    (s : Strategy) (l : List String) : List (String × ℚ) :=
  (l.filter (scorableB price sent)).map (scoredEntry price sent s)

/-! ## The feature store writes -/

/-- The row INSERTed by `record_prediction` when no row exists for the date
(03_predict_and_trade.py lines 150-153): every other column is NULL and
`model_version` takes its schema DEFAULT 1. -/
def blankRow (d : ℕ) (c : String) (s : ℚ) : TradeRow :=
  { date := d, chosen_coin := some c, chosen_score := some s,
    actual_24h_return_of_chosen := none, rank_of_chosen := none,
    ret1h := [], ret6h := [], ret24h := [], rsi14 := [], volr := [],
    sent := [], news_headlines := none, perplexity_summary := none,
    model_version := 1 }

/-- `record_prediction(coin, score, all_scores)` (lines 130-158): if a row
for the date exists, UPDATE only `chosen_coin` and `chosen_score`; otherwise
INSERT a fresh row. -/
def record_prediction (db : List TradeRow) (today : ℕ) (coin : String)
    (score : ℚ) : List TradeRow :=
  if db.any (fun r => r.date == today) then
    db.map (fun r =>
      if r.date == today then
        { r with chosen_coin := some coin, chosen_score := some score }
      else r)
  else db ++ [blankRow today coin score]

/-- A row with its prediction fields blanked: used to state that
`record_prediction` touches nothing else. -/
def erasePrediction (r : TradeRow) : TradeRow :=
  { r with chosen_coin := none, chosen_score := none }

/-! ## The result recorder (`calculate_rank`, 04_record_results.py 72-80) -/

/-- The `for rank, (coin, ret) in enumerate(sorted_coins, 1)` search: the
first position whose coin is the chosen one, else the fallback 16. -/
def rankLoop (chosen : String) : ℕ → List (String × ℚ) → ℕ
  | _, [] => 16
  | k, p :: rest => if p.1 == chosen then k else rankLoop chosen (k + 1) rest

/-- `calculate_rank(chosen_coin, all_returns)`: sort by descending realized
return and return the chosen coin's 1-indexed position (with the sorted list,
as the Python function does). -/
def calculate_rank (chosen : String) (rets : List (String × ℚ)) :
    ℕ × List (String × ℚ) :=
  (rankLoop chosen 1 (pysortDescBy Prod.snd rets), pysortDescBy Prod.snd rets)

/-! ## Concrete instances used by the closed theorems below -/

/-- A strategy that scores a coin by its 6h return. -/
def candW : Strategy := fun f => Except.ok f.2.1

/-- A strategy that scores a coin by its volume ratio. -/
def activeW : Strategy := fun f => Except.ok f.2.2.1

/-- A strategy that returns the constant score 1. -/
def okW : Strategy := fun _ => Except.ok 1

/-- A strategy whose every invocation raises. -/
def failW : Strategy := fun _ => Except.error ()

/-- A resolved trade row: the first coin has 6h return 10 (so `candW` picks
it, realized 24h return 1), the second has volume ratio 5 (so `activeW`
picks it, realized 24h return 2); the recorded chosen-coin return is 0. -/
def rowC2 (i : ℕ) : TradeRow :=
  { date := i, chosen_coin := some ("BTCUSD"), chosen_score := some 1,
    actual_24h_return_of_chosen := some 0, rank_of_chosen := some 1,
    ret1h := [], ret6h := [10] ++ List.replicate 15 0,
    ret24h := [1, 2] ++ List.replicate 14 0, rsi14 := [],
    volr := [1, 5] ++ List.replicate 14 1, sent := List.replicate 16 0,
    news_headlines := none, perplexity_summary := none, model_version := 1 }

/-- Ten resolved rows — enough for a backtest. -/
def T2 : List TradeRow := (List.range 10).map rowC2

/-- The backtest result of `candW` on the standard window over `T2`. -/
noncomputable def cresW : ℝ × ℚ :=
  (spearmanr (btLoop candW (queryResolved T2 180)).1
      (btLoop candW (queryResolved T2 180)).2.1,
   qMean (btLoop candW (queryResolved T2 180)).2.2)

/-- The backtest result of `activeW` on the standard window over `T2`. -/
noncomputable def aresW : ℝ × ℚ :=
  (spearmanr (btLoop activeW (queryResolved T2 180)).1
      (btLoop activeW (queryResolved T2 180)).2.1,
   qMean (btLoop activeW (queryResolved T2 180)).2.2)

/-- A `model_history` row carrying the code of the active strategy file. -/
def histOld : HistoryRow :=
  { date := 0, version := 2, scorer_code := "oldcode",
    spearman_correlation := 0, avg_daily_return := 0,
    improvement_type := "daily" }

/-- A consistent system state: the active file content appears in the log. -/
def S3 : SysState :=
  { db := { trades := [rowC2 0], model_history := [histOld] },
    current_scorer := some ("oldcode"), backups := [] }

/-- A system state with one trade row and an empty version log. -/
def S1 : SysState :=
  { db := { trades := [rowC2 0], model_history := [] },
    current_scorer := some ("oldcode"), backups := [] }

/-- A price entry with every field present. -/
def peW : PriceEntry := { return24h := some 1, return6h := some 1, volr := some 1 }

/-- A price cache that lacks an entry for BTCUSD. -/
def priceMissingBTC : List (String × PriceEntry) := [("ETHUSD", peW)]

/-- A sentiment map covering both BTCUSD and ETHUSD. -/
def sentBoth : List (String × ℚ) := [("BTCUSD", 0), ("ETHUSD", 0)]

/-- A price cache covering the whole universe. -/
def priceAll : List (String × PriceEntry) := COINS.map (fun c => (c, peW))

/-- A sentiment map covering the whole universe. -/
def sentAll : List (String × ℚ) := COINS.map (fun c => (c, 0))

/-- A 16-asset return map (every return 0). -/
def retsAll : List (String × ℚ) := COINS.map (fun c => (c, 0))

/-! ## Helper lemmas -/

theorem dailyCompare_retDelta (res : ℝ × ℚ) (acur : Option (ℝ × ℚ)) (gavg : Option ℚ) :
    (dailyCompare res acur gavg).retDelta = some (res.2 - gavg.getD 0) := by
  unfold dailyCompare; split <;> rfl

theorem dailyCompare_corrDelta (res : ℝ × ℚ) (acur : Option (ℝ × ℚ)) (gavg : Option ℚ) :
    (dailyCompare res acur gavg).corrDelta = some (res.1 - (acur.map Prod.fst).getD 0) := by
  unfold dailyCompare; split <;> rfl

theorem mapIdx_length {α β : Type} (f : ℕ → α → β) :
    ∀ (k : ℕ) (l : List α), (mapIdx f k l).length = l.length := by
  intro k l
  induction l generalizing k with
  | nil => rfl
  | cons a l ih => simp [mapIdx, ih]

theorem mapIdx_get? {α β : Type} (f : ℕ → α → β) :
    ∀ (l : List α) (k i : ℕ), (mapIdx f k l).get? i = (l.get? i).map (f (k + i)) := by
  intro l
  induction l with
  | nil => intro k i; simp [mapIdx]
  | cons a l ih =>
    intro k i
    cases i with
    | zero => simp [mapIdx]
    | succ n =>
      have harith : k + 1 + n = k + (n + 1) := by omega
      simp only [mapIdx, List.get?]
      rw [ih (k + 1) n, harith]

theorem mapIdx_map_fst {α β : Type} (g : ℕ → α → β) :
    ∀ (l : List α) (k : ℕ), (mapIdx (fun i c => (c, g i c)) k l).map Prod.fst = l := by
  intro l
  induction l with
  | nil => intro k; rfl
  | cons a l ih => intro k; simp [mapIdx, ih]

theorem coinScores_length (s : Strategy) (row : TradeRow) :
    (coinScores s row).length = 16 := by
  unfold coinScores; rw [mapIdx_length]; rfl

theorem coinScores_ne_nil (s : Strategy) (row : TradeRow) :
    coinScores s row ≠ [] := by
  intro h
  have h16 := coinScores_length s row
  rw [h] at h16
  simp at h16

theorem btLoop_eq (s : Strategy) : ∀ rows : List TradeRow,
    btLoop s rows =
      ((rows.map (dayPredRanks s)).flatten, (rows.map dayActRanks).flatten,
       rows.map (pickedReturn s)) := by
  intro rows
  induction rows with
  | nil => rfl
  | cons row rest ih =>
    unfold btLoop
    rw [if_neg (coinScores_ne_nil s row), ih]
    rfl

theorem flatten_ranks_length (s : Strategy) : ∀ rows : List TradeRow,
    ((rows.map (dayPredRanks s)).flatten).length = 16 * rows.length := by
  intro rows
  induction rows with
  | nil => simp
  | cons row rest ih =>
    have hday : (dayPredRanks s row).length = 16 := by
      unfold dayPredRanks; rw [List.length_map]; rfl
    simp only [List.map_cons, List.flatten_cons, List.length_append, ih, hday,
      List.length_cons]
    omega

theorem insortBy_length {α : Type} (key : α → ℚ) (x : α) :
    ∀ l : List α, (insortBy key x l).length = l.length + 1 := by
  intro l
  induction l with
  | nil => rfl
  | cons y ys ih => unfold insortBy; split <;> simp [ih]

theorem pysortDescBy_length {α : Type} (key : α → ℚ) (l : List α) :
    (pysortDescBy key l).length = l.length := by
  have h : ∀ (l acc : List α),
      (l.foldl (fun a x => insortBy key x a) acc).length = acc.length + l.length := by
    intro l
    induction l with
    | nil => intro acc; simp
    | cons x xs ih =>
      intro acc
      simp only [List.foldl_cons]
      rw [ih, insortBy_length, List.length_cons]
      omega
  simpa [pysortDescBy] using h l []

theorem rankLoop_range (chosen : String) : ∀ (l : List (String × ℚ)) (k : ℕ),
    rankLoop chosen k l = 16 ∨
      (k ≤ rankLoop chosen k l ∧ rankLoop chosen k l < k + l.length) := by
  intro l
  induction l with
  | nil => intro k; left; rfl
  | cons p rest ih =>
    intro k
    unfold rankLoop
    by_cases h : (p.1 == chosen) = true
    · rw [if_pos h]; right; refine ⟨le_rfl, ?_⟩; rw [List.length_cons]; omega
    · rw [if_neg h]
      rcases ih (k + 1) with h16 | ⟨h1, h2⟩
      · left; exact h16
      · right; refine ⟨by omega, ?_⟩; rw [List.length_cons]; omega

theorem rankLoop_found (chosen : String) : ∀ (l : List (String × ℚ)) (k : ℕ),
    l.findIdx (fun p => p.1 == chosen) < l.length →
    rankLoop chosen k l = k + l.findIdx (fun p => p.1 == chosen) := by
  intro l
  induction l with
  | nil => intro k h; simp at h
  | cons p rest ih =>
    intro k h
    unfold rankLoop
    by_cases hp : (p.1 == chosen) = true
    · rw [if_pos hp]; simp [List.findIdx_cons, hp]
    · rw [if_neg hp]
      rw [Bool.not_eq_true] at hp
      have hlen : rest.findIdx (fun q => q.1 == chosen) < rest.length := by
        rw [List.findIdx_cons, hp, List.length_cons] at h
        simp only [cond_false] at h
        omega
      rw [ih (k + 1) hlen, List.findIdx_cons, hp]
      simp only [cond_false]
      omega

/-! ## Claim theorems -/

/-- C7: the promotion rule of `main` (line 453) and `long_term_improvement`
(line 394) is non-strict: a `corr_delta` of exactly `0.04` meets the
threshold whatever the return delta is, while `corr_delta = 0.0399999`
together with a return delta below `0.25` does not. -/
theorem promotion_threshold_boundary :
    (∀ retD : ℚ, improvementMet (0.04 : ℝ) retD) ∧
    (∀ retD : ℚ, retD < 0.25 → ¬ improvementMet (0.0399999 : ℝ) retD) := by
  constructor
  · intro retD
    exact Or.inl le_rfl
  · intro retD hlt h
    rcases h with hc | hr
    · norm_num at hc
    · exact absurd hr (not_le.mpr hlt)

/-- Witness for C7 at the concrete return delta 0. -/
theorem promotion_threshold_boundary_witness :
    improvementMet (0.04 : ℝ) 0 ∧
      ((0 : ℚ) < 0.25 ∧ ¬ improvementMet (0.0399999 : ℝ) 0) :=
  ⟨promotion_threshold_boundary.1 0,
   by with_unfolding_all decide,
   promotion_threshold_boundary.2 0 (by with_unfolding_all decide)⟩

/-- C9: `calculate_rank` returns the chosen coin's 1-indexed position in the
list of coins sorted by descending realized return; on a 16-entry return map
the result always lies in `[1, 16]`; and on the three-asset scenario
(A = 5%, B = -2%, C = 9%, chosen = A) it returns 2. -/
theorem calculate_rank_spec :
    (∀ (rets : List (String × ℚ)) (chosen : String), rets.length = 16 →
        1 ≤ (calculate_rank chosen rets).1 ∧ (calculate_rank chosen rets).1 ≤ 16) ∧
    (∀ (rets : List (String × ℚ)) (chosen : String),
        (pysortDescBy Prod.snd rets).findIdx (fun p => p.1 == chosen) < rets.length →
        (calculate_rank chosen rets).1 =
          (pysortDescBy Prod.snd rets).findIdx (fun p => p.1 == chosen) + 1) ∧
    (calculate_rank ("A") [("A", 5), ("B", -2), ("C", 9)]).1 = 2 := by
  refine ⟨?_, ?_, by decide⟩
  · intro rets chosen h
    have hlen : (pysortDescBy Prod.snd rets).length = 16 := by
      rw [pysortDescBy_length, h]
    rcases rankLoop_range chosen (pysortDescBy Prod.snd rets) 1 with h16 | ⟨h1, h2⟩
    · unfold calculate_rank
      rw [h16]
      omega
    · unfold calculate_rank
      rw [hlen] at h2
      omega
  · intro rets chosen h
    have h' : (pysortDescBy Prod.snd rets).findIdx (fun p => p.1 == chosen) <
        (pysortDescBy Prod.snd rets).length := by
      rw [pysortDescBy_length]; exact h
    unfold calculate_rank
    rw [rankLoop_found chosen _ 1 h']
    omega

/-- Witness for C9: the bounds on a concrete 16-entry map and the position
form on the scenario input. -/
theorem calculate_rank_spec_witness :
    (retsAll.length = 16 ∧
      1 ≤ (calculate_rank ("BTCUSD") retsAll).1 ∧
      (calculate_rank ("BTCUSD") retsAll).1 ≤ 16) ∧
    ((pysortDescBy Prod.snd [(("A" : String), (5 : ℚ)), ("B", -2), ("C", 9)]).findIdx
        (fun p => p.1 == "A") < 3 ∧
      (calculate_rank ("A") [("A", 5), ("B", -2), ("C", 9)]).1 =
        (pysortDescBy Prod.snd [(("A" : String), (5 : ℚ)), ("B", -2), ("C", 9)]).findIdx
          (fun p => p.1 == "A") + 1) :=
  ⟨⟨by decide, calculate_rank_spec.1 retsAll ("BTCUSD") (by decide)⟩,
   ⟨by decide, calculate_rank_spec.2.1 [("A", 5), ("B", -2), ("C", 9)] ("A") (by decide)⟩⟩

/-- C1 fails on the code: `get_current_model_version` reads
`MAX(model_version) FROM trades`, but no code path ever writes
`trades.model_version`, so it stays at its schema default 1 and every
promotion records version `1 + 1 = 2`.  Starting from `S1` (one trade row,
empty log), two successive promotions both append a row with version 2 —
the version is reused and the second promotion's version is not the
previously promoted version plus one — while the trade rows still carry
`model_version = 1`. -/
theorem upgrade_model_version_reuse :
    ((upgrade_model 101 ("codeB") 0 0 ("daily")
        (upgrade_model 100 ("codeA") 0 0 ("daily") S1)).db.model_history.map
          (fun r => r.version) = [2, 2]) ∧
    ((upgrade_model 101 ("codeB") 0 0 ("daily")
        (upgrade_model 100 ("codeA") 0 0 ("daily") S1)).db.trades.map
          (fun r => r.model_version) = [1]) := by
  constructor <;> rfl

/-- C3 counterexample: the promote operation is not atomic.  `S3` is
consistent (its active file content `"oldcode"` is logged), but the state
reached after the first two writes of `upgrade_model` (backup, then
overwrite `current_scorer.py` with `"newcode"`) and before the
`model_history` INSERT has an active strategy whose code appears in no log
row. -/
theorem promote_interrupted_inconsistent :
    ConsistentActive S3 ∧
      ¬ ConsistentActive (upgradeWrite ("newcode") (upgradeBackup S3)) := by
  constructor
  · intro c hc
    have hc' : c = "oldcode" := by
      have : some ("oldcode") = some c := hc
      exact (Option.some_inj.mp this).symm
    refine ⟨histOld, by simp [S3], ?_⟩
    rw [hc']
    rfl
  · intro h
    rcases h "newcode" rfl with ⟨r, hr, hcode⟩
    have hr' : r = histOld := by
      simpa [upgradeWrite, upgradeBackup, S3] using hr
    rw [hr'] at hcode
    exact absurd hcode (by decide)

/-- C3 amended: a promotion that runs to completion re-establishes the
consistency invariant — the newly written active code is the code of the
row just appended to `model_history` — from any starting state. -/
theorem promote_full_run_consistent :
    ∀ (S : SysState) (today : ℕ) (code : String) (corr : ℝ) (ret : ℚ)
      (itype : String), ConsistentActive (upgrade_model today code corr ret itype S) := by
  intro S today code corr ret itype c hc
  have hc' : c = code := by
    have : some code = some c := hc
    exact (Option.some_inj.mp this).symm
  subst hc'
  refine ⟨{ date := today,
            version := get_current_model_version
              (upgradeWrite c (upgradeBackup S)).db + 1,
            scorer_code := c, spearman_correlation := corr,
            avg_daily_return := ret, improvement_type := itype }, ?_, rfl⟩
  simp [upgrade_model, upgradeInsert]

/-- C10: when a row for the date already exists, `record_prediction` only
rewrites `chosen_coin` and `chosen_score` — the row count is unchanged and
every other field of every row (outcome fields, per-coin features, news
fields, `model_version`) is untouched — and the operation is idempotent:
running it twice with the same data gives the same table as running it once
(this part holds for every starting table, including the INSERT case). -/
theorem record_prediction_frame :
    (∀ (db : List TradeRow) (t : ℕ) (c : String) (s : ℚ),
        db.any (fun r => r.date == t) = true →
        (record_prediction db t c s).length = db.length ∧
        (record_prediction db t c s).map erasePrediction = db.map erasePrediction) ∧
    (∀ (db : List TradeRow) (t : ℕ) (c : String) (s : ℚ),
        record_prediction (record_prediction db t c s) t c s =
          record_prediction db t c s) := by
  constructor
  · intro db t c s h
    unfold record_prediction
    rw [if_pos h]
    refine ⟨by simp, ?_⟩
    rw [List.map_map]
    apply List.map_congr_left
    intro r _
    by_cases hr : r.date = t
    · simp [hr, erasePrediction]
    · simp [hr]
  · intro db t c s
    by_cases h : db.any (fun r => r.date == t) = true
    · unfold record_prediction
      rw [if_pos h]
      have hdate : ∀ r : TradeRow,
          (if (r.date == t) = true then
            { r with chosen_coin := some c, chosen_score := some s }
          else r).date = r.date := by
        intro r
        by_cases hr : (r.date == t) = true <;> simp [hr]
      have hany : (db.map (fun r =>
          if (r.date == t) = true then
            { r with chosen_coin := some c, chosen_score := some s }
          else r)).any (fun r => r.date == t) = true := by
        rw [List.any_map]
        have : ((fun r : TradeRow => r.date == t) ∘ (fun r =>
            if (r.date == t) = true then
              { r with chosen_coin := some c, chosen_score := some s }
            else r)) = (fun r : TradeRow => r.date == t) := by
          funext r
          simp only [Function.comp]
          rw [hdate r]
        rw [this]
        exact h
      rw [if_pos hany, List.map_map]
      apply List.map_congr_left
      intro r _
      by_cases hr : r.date = t
      · simp [Function.comp, hr]
      · simp [Function.comp, hr]
    · unfold record_prediction
      rw [if_neg h]
      have hblank : ((blankRow t c s).date == t) = true := by simp [blankRow]
      have hany : (db ++ [blankRow t c s]).any (fun r => r.date == t) = true := by
        rw [List.any_append]
        simp [hblank]
      rw [if_pos hany, List.map_append]
      have hmap : db.map (fun r =>
          if (r.date == t) = true then
            { r with chosen_coin := some c, chosen_score := some s }
          else r) = db := by
        have hall : ∀ r ∈ db, ¬ ((r.date == t) = true) := by
          intro r hr hcontra
          exact h (List.any_of_mem hr hcontra)
        calc db.map (fun r =>
            if (r.date == t) = true then
              { r with chosen_coin := some c, chosen_score := some s }
            else r) = db.map id := by
              apply List.map_congr_left
              intro r hr
              rw [if_neg (hall r hr)]
              rfl
          _ = db := List.map_id db
      rw [hmap]
      have hone : [blankRow t c s].map (fun r =>
          if (r.date == t) = true then
            { r with chosen_coin := some c, chosen_score := some s }
          else r) = [blankRow t c s] := by
        simp only [List.map_cons, List.map_nil]
        rw [if_pos hblank]
        rfl
      rw [hone]

/-- Witness for C10 on a one-row table whose date matches. -/
theorem record_prediction_frame_witness :
    ([blankRow 5 ("X") 1].any (fun r => r.date == 5) = true ∧
      (record_prediction [blankRow 5 ("X") 1] 5 ("Y") 2).length =
        [blankRow 5 ("X") 1].length ∧
      (record_prediction [blankRow 5 ("X") 1] 5 ("Y") 2).map erasePrediction =
        [blankRow 5 ("X") 1].map erasePrediction) ∧
    record_prediction (record_prediction [blankRow 5 ("X") 1] 5 ("Y") 2) 5 ("Y") 2 =
      record_prediction [blankRow 5 ("X") 1] 5 ("Y") 2 :=
  ⟨⟨by decide,
    (record_prediction_frame.1 [blankRow 5 ("X") 1] 5 ("Y") 2 (by decide)).1,
    (record_prediction_frame.1 [blankRow 5 ("X") 1] 5 ("Y") 2 (by decide)).2⟩,
   record_prediction_frame.2 [blankRow 5 ("X") 1] 5 ("Y") 2⟩

theorem predictLoop_ok (price : List (String × PriceEntry))
    (sent : List (String × ℚ)) (s : Strategy)
    (hs : ∀ x : Feats, s x ≠ Except.error ()) :
    ∀ l : List String,
      predictLoop price sent s l = Except.ok (scoredOf price sent s l) := by
  intro l
  induction l with
  | nil => rfl
  | cons c rest ih =>
    unfold predictLoop
    cases hp : price.lookup c with
    | none =>
      rw [ih]
      simp [scoredOf, List.filter_cons, scorableB, hp]
    | some pe =>
      cases hsv : sent.lookup c with
      | none =>
        rw [ih]
        simp [scoredOf, List.filter_cons, scorableB, hp, hsv]
      | some sv =>
        cases hsc : s (predFeats pe sv) with
        | error e =>
          cases e
          exact absurd hsc (hs _)
        | ok v =>
          rw [ih]
          simp [scoredOf, List.filter_cons, scorableB, hp, hsv, scoredEntry,
            okValue, hsc, Except.map, Except.toOption]

theorem predictLoop_err (price : List (String × PriceEntry))
    (sent : List (String × ℚ)) (s : Strategy) :
    ∀ l : List String,
      (∃ c pe sv, c ∈ l ∧ price.lookup c = some pe ∧ sent.lookup c = some sv ∧
          s (predFeats pe sv) = Except.error ()) →
      predictLoop price sent s l = Except.error () := by
  intro l
  induction l with
  | nil =>
    rintro ⟨c, pe, sv, hc, -⟩
    simp at hc
  | cons d rest ih =>
    rintro ⟨c, pe, sv, hc, hp, hsv, herr⟩
    have hrec : c ∈ rest → predictLoop price sent s rest = Except.error () :=
      fun hmem => ih ⟨c, pe, sv, hmem, hp, hsv, herr⟩
    rcases List.mem_cons.mp hc with rfl | hmem
    · unfold predictLoop
      simp [hp, hsv, herr]
    · unfold predictLoop
      cases hpd : price.lookup d with
      | none => simp [hrec hmem]
      | some ped =>
        cases hsd : sent.lookup d with
        | none => simp [hrec hmem]
        | some svd =>
          cases hscd : s (predFeats ped svd) with
          | error e => cases e; simp [hscd]
          | ok v => simp [hscd, hrec hmem, Except.map]

/-- C5 counterexample: an asset whose feature snapshot is missing is not
scored with defaults — it is skipped.  With a price cache lacking BTCUSD
(but sentiment present for it) and a total strategy, `predict_best_coin`
succeeds scoring only ETHUSD, its score list contains no BTCUSD entry, and
it does not raise; the claim would require BTCUSD to appear with the
default-feature score. -/
theorem predict_skips_missing_snapshot :
    predict_best_coin priceMissingBTC sentBoth okW =
      Except.ok ("ETHUSD", 1, [("ETHUSD", 1)]) ∧
    ("BTCUSD" ∈ COINS) ∧
    ([(("ETHUSD" : String), (1 : ℚ))].lookup ("BTCUSD") = none) :=
  ⟨by rfl, by decide, by decide⟩

/-- C5 amended: a coin missing from the price cache or the sentiment map is
skipped (per-field defaults only fill missing fields of a present snapshot);
for a strategy that never fails, the engine raises `NoScorableAssets`
exactly when no coin has both entries, and otherwise the collected score
list covers exactly the coins with both entries. -/
theorem predict_scorable_coins :
    ∀ (price : List (String × PriceEntry)) (sent : List (String × ℚ))
      (s : Strategy), (∀ x : Feats, s x ≠ Except.error ()) →
      ((predict_best_coin price sent s = Except.error PredictErr.noScorableAssets ↔
          COINS.filter (scorableB price sent) = []) ∧
       (∀ b sc scores,
          predict_best_coin price sent s = Except.ok (b, sc, scores) →
          scores.map Prod.fst = COINS.filter (scorableB price sent))) := by
  intro price sent s hs
  have hloop := predictLoop_ok price sent s hs COINS
  unfold predict_best_coin
  rw [hloop]
  cases hfil : COINS.filter (scorableB price sent) with
  | nil =>
    constructor
    · simp [scoredOf, hfil]
    · intro b sc scores heq
      simp [scoredOf, hfil] at heq
  | cons d ds =>
    constructor
    · simp [scoredOf, hfil]
    · intro b sc scores heq
      simp only [scoredOf, hfil, List.map_cons, Except.ok.injEq,
        Prod.mk.injEq] at heq
      obtain ⟨-, -, hscores⟩ := heq
      subst hscores
      have hcomp : (Prod.fst ∘ scoredEntry price sent s) = id := funext fun x => rfl
      simp [List.map_map, hcomp]
      rfl

/-- Witness for C5 on the concrete caches: the iff instance, and the score
list of the successful pass covering exactly the scorable coin ETHUSD. -/
theorem predict_scorable_coins_witness :
    (predict_best_coin priceMissingBTC sentBoth okW =
        Except.error PredictErr.noScorableAssets ↔
      COINS.filter (scorableB priceMissingBTC sentBoth) = []) ∧
    ([(("ETHUSD" : String), (1 : ℚ))].map Prod.fst =
      COINS.filter (scorableB priceMissingBTC sentBoth)) :=
  ⟨(predict_scorable_coins priceMissingBTC sentBoth okW
      (fun _ h => by simp [okW] at h)).1,
   (predict_scorable_coins priceMissingBTC sentBoth okW
      (fun _ h => by simp [okW] at h)).2 ("ETHUSD") 1 [("ETHUSD", 1)] (by rfl)⟩

/-- C6 counterexample: a strategy failure during the prediction pass is not
replaced by a neutral 0.0 — it aborts the pass.  With full caches and a
strategy whose invocations all raise, `predict_best_coin` fails, while the
backtest pass over the same strategy maps every coin to score 0. -/
theorem predict_aborts_on_scoring_failure :
    predict_best_coin priceAll sentAll failW =
      Except.error PredictErr.scoringFailure ∧
    (coinScores failW (rowC2 0)).map Prod.snd = List.replicate 16 0 :=
  ⟨by rfl, by decide⟩

/-- C6 amended: in the backtest scoring pass a strategy failure is caught at
the call site and replaced by score 0 for that asset only (every asset still
gets an entry); in the prediction pass an invocation failure propagates and
aborts the whole pass with `scoringFailure`. -/
theorem scoring_failure_isolated :
    (∀ (s : Strategy) (row : TradeRow), (coinScores s row).map Prod.fst = COINS) ∧
    (∀ (s : Strategy) (row : TradeRow) (i : ℕ) (c : String),
        COINS.get? i = some c → s (btFeats row i) = Except.error () →
        (coinScores s row).get? i = some (c, 0)) ∧
    (∀ (price : List (String × PriceEntry)) (sent : List (String × ℚ))
        (s : Strategy),
        (∃ c pe sv, c ∈ COINS ∧ price.lookup c = some pe ∧
            sent.lookup c = some sv ∧ s (predFeats pe sv) = Except.error ()) →
        predict_best_coin price sent s = Except.error PredictErr.scoringFailure) := by
  refine ⟨?_, ?_, ?_⟩
  · intro s row
    exact mapIdx_map_fst _ COINS 0
  · intro s row i c hci herr
    unfold coinScores
    rw [mapIdx_get? _ COINS 0 i]
    simp only [Nat.zero_add]
    rw [hci]
    simp [btScore, herr]
  · intro price sent s hex
    unfold predict_best_coin
    rw [predictLoop_err price sent s COINS hex]

/-- Witness for C6: the caught failure in the backtest pass (entry 0 is
BTCUSD with score 0) and the aborting failure in the prediction pass, both
with the always-failing strategy. -/
theorem scoring_failure_isolated_witness :
    ((coinScores failW (rowC2 0)).get? 0 = some (("BTCUSD" : String), (0 : ℚ))) ∧
    predict_best_coin priceAll sentAll failW =
      Except.error PredictErr.scoringFailure :=
  ⟨scoring_failure_isolated.2.1 failW (rowC2 0) 0 ("BTCUSD") rfl rfl,
   scoring_failure_isolated.2.2 priceAll sentAll failW
     ⟨"BTCUSD", peW, 0, by decide, by decide, by decide, rfl⟩⟩

theorem dailyCompare_isPromotion (res : ℝ × ℚ) (acur : Option (ℝ × ℚ))
    (gavg : Option ℚ)
    (h : improvementMet (res.1 - ((acur.map Prod.fst).getD 0)) (res.2 - gavg.getD 0)) :
    (dailyCompare res acur gavg).isPromotion = true := by
  unfold dailyCompare
  rw [if_pos h]
  rfl

theorem mainCycle_eq (trades : List TradeRow) (y : TradeRow) (cl : Option Strategy)
    (active : Option (Option Strategy)) :
    mainCycle trades (some y) (some cl) active =
      match backtest_scorer (queryResolved trades 180) cl with
      | none => CycleOutcome.candidateBacktestFailed
      | some res =>
        match active with
        | none => CycleOutcome.promotedInitial
        | some al =>
          dailyCompare res (backtest_scorer (queryResolved trades 180) al)
            (get_current_performance trades) := rfl

/-- C8: for any strategy and any window of resolved rows, the backtest
returns `(None, None)` when fewer than 10 rows exist (before any score is
computed — the check precedes loading); otherwise it returns the Spearman
coefficient of the single pooled sequence of per-asset-per-day predicted
and actual ranks (all days concatenated, not a per-day average), paired
with the arithmetic mean over the window's days of the realized return of
the asset the strategy ranked first each day. -/
theorem backtest_scorer_spec :
    (∀ (rows : List TradeRow) (load : Option Strategy), rows.length < 10 →
        backtest_scorer rows load = none) ∧
    (∀ (rows : List TradeRow) (s : Strategy), 10 ≤ rows.length →
        backtest_scorer rows (some s) =
          some (spearmanr ((rows.map (dayPredRanks s)).flatten)
                  ((rows.map dayActRanks).flatten),
                qMean (rows.map (pickedReturn s)))) := by
  constructor
  · intro rows load h
    unfold backtest_scorer
    rw [if_pos h]
  · intro rows s h
    have h10 : ¬ rows.length < 10 := by omega
    have hlen : (btLoop s rows).1.length = 16 * rows.length := by
      rw [btLoop_eq]
      exact flatten_ranks_length s rows
    have hlen10 : ¬ (btLoop s rows).1.length < 10 := by
      rw [hlen]; omega
    unfold backtest_scorer
    simp only [if_neg h10, if_neg hlen10]
    rw [btLoop_eq]

/-- Witness for C8: the short-window case on the empty table and the long
form on the ten-row table `T2` with the 6h-return strategy. -/
theorem backtest_scorer_spec_witness :
    (([] : List TradeRow).length < 10 ∧
      backtest_scorer ([] : List TradeRow) none = none) ∧
    (10 ≤ T2.length ∧
      backtest_scorer T2 (some candW) =
        some (spearmanr ((T2.map (dayPredRanks candW)).flatten)
                ((T2.map dayActRanks).flatten),
              qMean (T2.map (pickedReturn candW)))) :=
  ⟨⟨by decide, backtest_scorer_spec.1 [] none (by decide)⟩,
   ⟨by decide, backtest_scorer_spec.2 T2 candW (by decide)⟩⟩

/-- C2 fails on the code: the `return_improvement` computed by `main` is the
candidate's backtest average return minus `get_current_performance()` — the
historical average realized return of the chosen coin over ALL resolved
rows — not minus the active strategy's backtest average return.  On `T2`
the candidate's backtest return is 1 and the active strategy's is 2, yet
the cycle's return delta is `1 - 0 = 1` (the stored chosen-coin returns all
being 0), not `1 - 2 = -1` as the claim's formula requires. -/
theorem daily_cycle_return_delta_cex :
    (mainCycle T2 (some (rowC2 0)) (some (some candW))
        (some (some activeW))).retDelta = some 1 ∧
    (backtest_scorer (queryResolved T2 180) (some candW)).map
        (fun p => p.2) = some 1 ∧
    (backtest_scorer (queryResolved T2 180) (some activeW)).map
        (fun p => p.2) = some 2 ∧
    (1 : ℚ) ≠ 1 - 2 := by
  have hc : backtest_scorer (queryResolved T2 180) (some candW) = some cresW := by
    with_unfolding_all rfl
  have ha : backtest_scorer (queryResolved T2 180) (some activeW) = some aresW := by
    with_unfolding_all rfl
  have hg : get_current_performance T2 = some 0 := by with_unfolding_all decide
  have hcres2 : cresW.2 = 1 := by with_unfolding_all decide
  have hares2 : aresW.2 = 2 := by with_unfolding_all decide
  refine ⟨?_, ?_, ?_, by norm_num⟩
  · rw [mainCycle_eq, hc]
    show (dailyCompare cresW (backtest_scorer (queryResolved T2 180) (some activeW))
        (get_current_performance T2)).retDelta = some 1
    rw [ha, hg, dailyCompare_retDelta]
    simp [hcres2]
  · rw [hc]
    simp [hcres2]
  · rw [ha]
    simp [hares2]

/-- C2 amended: whenever the candidate and the active strategy both backtest
successfully over the (shared) 180-record window and resolved rows exist,
the daily cycle's `corr_delta` is candidate correlation minus active
correlation over that window, but its `return_delta` is the candidate's
backtest average return minus the overall average realized return of the
chosen coin (`get_current_performance`), not the active strategy's backtest
return. -/
theorem daily_cycle_deltas :
    ∀ (trades : List TradeRow) (y : TradeRow) (cl al : Option Strategy)
      (cres ares : ℝ × ℚ) (gavg : ℚ),
      backtest_scorer (queryResolved trades 180) cl = some cres →
      backtest_scorer (queryResolved trades 180) al = some ares →
      get_current_performance trades = some gavg →
      (mainCycle trades (some y) (some cl) (some al)).corrDelta =
        some (cres.1 - ares.1) ∧
      (mainCycle trades (some y) (some cl) (some al)).retDelta =
        some (cres.2 - gavg) := by
  intro trades y cl al cres ares gavg hc ha hg
  constructor
  · rw [mainCycle_eq, hc]
    show (dailyCompare cres (backtest_scorer (queryResolved trades 180) al)
        (get_current_performance trades)).corrDelta = some (cres.1 - ares.1)
    rw [ha, hg, dailyCompare_corrDelta]
    simp
  · rw [mainCycle_eq, hc]
    show (dailyCompare cres (backtest_scorer (queryResolved trades 180) al)
        (get_current_performance trades)).retDelta = some (cres.2 - gavg)
    rw [ha, hg, dailyCompare_retDelta]
    simp

/-- Witness for C2's amended statement on the concrete table `T2`. -/
theorem daily_cycle_deltas_witness :
    backtest_scorer (queryResolved T2 180) (some candW) = some cresW ∧
    backtest_scorer (queryResolved T2 180) (some activeW) = some aresW ∧
    get_current_performance T2 = some 0 ∧
    (mainCycle T2 (some (rowC2 0)) (some (some candW))
        (some (some activeW))).retDelta = some (cresW.2 - 0) := by
  have hc : backtest_scorer (queryResolved T2 180) (some candW) = some cresW := by
    with_unfolding_all rfl
  have ha : backtest_scorer (queryResolved T2 180) (some activeW) = some aresW := by
    with_unfolding_all rfl
  have hg : get_current_performance T2 = some 0 := by with_unfolding_all decide
  exact ⟨hc, ha, hg,
    (daily_cycle_deltas T2 (rowC2 0) (some candW) (some activeW) cresW aresW 0
      hc ha hg).2⟩

/-- C4 fails on the code for the daily cycle: when the active strategy's
backtest returns `(None, None)` (here: the scorer file fails to load), the
cycle coerces the missing correlation to `0.0` and can still promote.  On
`T2` the candidate backtests fine and the cycle promotes even though the
active strategy's backtest returned `None`. -/
theorem promoted_despite_backtest_none :
    (mainCycle T2 (some (rowC2 0)) (some (some candW)) (some none)).isPromotion =
      true ∧
    backtest_scorer (queryResolved T2 180) none = none := by
  have hnone : backtest_scorer (queryResolved T2 180) none = none := by
    with_unfolding_all rfl
  have hc : backtest_scorer (queryResolved T2 180) (some candW) = some cresW := by
    with_unfolding_all rfl
  have hg : get_current_performance T2 = some 0 := by with_unfolding_all decide
  have hcres2 : cresW.2 = 1 := by with_unfolding_all decide
  refine ⟨?_, hnone⟩
  rw [mainCycle_eq, hc]
  show (dailyCompare cresW (backtest_scorer (queryResolved T2 180) none)
      (get_current_performance T2)).isPromotion = true
  rw [hnone, hg]
  apply dailyCompare_isPromotion
  refine Or.inr ?_
  simp [hcres2]
  norm_num

/-- C4 amended: the controller takes no action when the CANDIDATE's backtest
returns `None` (daily cycle), and in the long-term cycle when either
backtest returns `None`; but (see the counterexample) a `None` from the
active strategy's backtest in the daily cycle does not stop promotion. -/
theorem insufficient_data_no_action :
    (∀ (trades : List TradeRow) (y : TradeRow) (cl : Option Strategy)
        (active : Option (Option Strategy)),
        backtest_scorer (queryResolved trades 180) cl = none →
        mainCycle trades (some y) (some cl) active =
          CycleOutcome.candidateBacktestFailed) ∧
    (∀ (trades : List TradeRow) (cl al : Option Strategy),
        backtest_scorer (queryResolved trades 180) cl = none ∨
        backtest_scorer (queryResolved trades 180) al = none →
        longTermCycle trades cl al = LTOutcome.noAction) := by
  constructor
  · intro trades y cl active h
    rw [mainCycle_eq, h]
  · intro trades cl al h
    unfold longTermCycle
    by_cases h30 : (trades.filter resolvedQ).length < 30
    · rw [if_pos h30]
    · rw [if_neg h30]
      rcases h with hcl | hal
      · rw [hcl]
      · cases hcb : backtest_scorer (queryResolved trades 180) cl with
        | none => rfl
        | some res => rw [hal]

/-- Witness for C4's amended statement on the empty table, where every
backtest is `None`. -/
theorem insufficient_data_no_action_witness :
    backtest_scorer (queryResolved ([] : List TradeRow) 180) none = none ∧
    mainCycle [] (some (rowC2 0)) (some none) none =
      CycleOutcome.candidateBacktestFailed ∧
    longTermCycle [] none none = LTOutcome.noAction := by
  have hb : backtest_scorer (queryResolved ([] : List TradeRow) 180) none = none := by
    rfl
  exact ⟨hb, insufficient_data_no_action.1 [] (rowC2 0) none none hb,
    insufficient_data_no_action.2 [] none none (Or.inl hb)⟩
